import Mathlib

/-!
A shallow embedding of the tstris game engine core (src/game/piece.rs,
src/game/board.rs, src/game/state.rs, src/input/handler.rs,
src/input/direction.rs, src/constants.rs) and proofs about it.

Modelling conventions:
  * `usize`/`u32`/`i32` become `Nat`/`Int`; board indices stay in bounds
    exactly where the source guarantees it, and out-of-bounds list reads
    use `List.getD` with a default (the source never performs them on the
    guarded paths).
  * `std::time::Instant` timestamps become `Nat` values supplied by the
    caller as a `now` argument, mirroring how the source calls
    `Instant::now()` at the corresponding points.
  * The RNG-backed 7-bag (`fill_bag` / `get_next_piece_type`) is
    abstracted by an explicit oracle `refill : List PieceType` listing the
    piece types the bag would produce, in order.
  * Fields of `Game` that are pure wall-clock bookkeeping and are touched
    by no claim (`drop_timer`, `countdown_timer`, `game_timer`,
    `final_time`, `piece_bag`) are not carried in the state record.
-/

namespace Tstris

/-- Colors used by the pieces (ratatui colors referenced by the source). -/
inductive Color where
  | Cyan | Yellow | Magenta | Green | Red | Blue | LightYellow
deriving DecidableEq

/-- `Cell` from src/game/board.rs. -/
inductive Cell where
  | Empty
  | Filled (c : Color)
  | Ghost (c : Color)
deriving DecidableEq

/-- `BOARD_WIDTH` from src/constants.rs. -/
def BOARD_WIDTH : Nat := 10

/-- `BOARD_HEIGHT` from src/constants.rs. -/
def BOARD_HEIGHT : Nat := 20

/-- `TARGET_LINES` from src/constants.rs. -/
def TARGET_LINES : Nat := 40

/-- `Board` from src/game/board.rs: a HEIGHT x WIDTH grid, row 0 on top. -/
abbrev Board := List (List Cell)

/-- One all-Empty row of width `BOARD_WIDTH`. -/
def emptyRow : List Cell := List.replicate BOARD_WIDTH Cell.Empty

/-- `empty_board` from src/game/board.rs. -/
def empty_board : Board := List.replicate BOARD_HEIGHT emptyRow

/-- `PieceType` from src/game/piece.rs. -/
inductive PieceType where
  | I | O | T | S | Z | J | L
deriving DecidableEq

/-- `Piece` from src/game/piece.rs. -/
structure Piece where
  piece_type : PieceType
  shape : List (List Bool)
  x : Int
  y : Int
  color : Color
deriving DecidableEq

/-- `Piece::new` from src/game/piece.rs: shape table, spawn offset
`x = (BOARD_WIDTH - 4) / 2`, `y = 0`, fixed color per type. -/
def Piece.new (piece_type : PieceType) : Piece :=
  let sc : List (List Bool) × Color :=
    match piece_type with
    | PieceType.I =>
        ([[false, false, false, false],
          [true, true, true, true],
          [false, false, false, false],
          [false, false, false, false]], Color.Cyan)
    | PieceType.O =>
        ([[true, true],
          [true, true]], Color.Yellow)
    | PieceType.T =>
        ([[false, true, false],
          [true, true, true],
          [false, false, false]], Color.Magenta)
    | PieceType.S =>
        ([[false, true, true],
          [true, true, false],
          [false, false, false]], Color.Green)
    | PieceType.Z =>
        ([[true, true, false],
          [false, true, true],
          [false, false, false]], Color.Red)
    | PieceType.J =>
        ([[true, false, false],
          [true, true, true],
          [false, false, false]], Color.Blue)
    | PieceType.L =>
        ([[false, false, true],
          [true, true, true],
          [false, false, false]], Color.LightYellow)
  { piece_type := piece_type
    shape := sc.1
    x := ((BOARD_WIDTH : Int) - 4) / 2
    y := 0
    color := sc.2 }

/-- Read a matrix entry, `false` when out of range (the rotation loops of
the source only read in-range entries of square matrices). -/
def getCell (s : List (List Bool)) (i j : Nat) : Bool :=
  (s.getD i []).getD j false

/-- `Piece::rotate_clockwise` from src/game/piece.rs. The source builds a
`size x size` matrix by `new_shape[j][size-1-i] = shape[i][j]`; since
`(i,j) to (j, size-1-i)` is a bijection on the index square, the built
matrix has entry `(a,b)` equal to `shape[size-1-b][a]`, which is the form
used here. -/
def rotCWshape (s : List (List Bool)) : List (List Bool) :=
  let n := s.length
  (List.range n).map fun a => (List.range n).map fun b => getCell s (n - 1 - b) a

/-- `Piece::rotate_counter_clockwise` from src/game/piece.rs: the source
assigns `new_shape[size-1-j][i] = shape[i][j]`, i.e. entry `(a,b)` of the
result is `shape[b][size-1-a]`. -/
def rotCCWshape (s : List (List Bool)) : List (List Bool) :=
  let n := s.length
  (List.range n).map fun a => (List.range n).map fun b => getCell s b (n - 1 - a)

/-- `Piece::rotate_180` from src/game/piece.rs: the source assigns
`new_shape[size-1-i][size-1-j] = shape[i][j]`, i.e. entry `(a,b)` of the
result is `shape[size-1-a][size-1-b]`. -/
def rot180shape (s : List (List Bool)) : List (List Bool) :=
  let n := s.length
  (List.range n).map fun a => (List.range n).map fun b => getCell s (n - 1 - a) (n - 1 - b)

def Piece.rotate_clockwise (p : Piece) : Piece :=
  { p with shape := rotCWshape p.shape }

def Piece.rotate_counter_clockwise (p : Piece) : Piece :=
  { p with shape := rotCCWshape p.shape }

def Piece.rotate_180 (p : Piece) : Piece :=
  { p with shape := rot180shape p.shape }

/-- `Piece::get_blocks` from src/game/piece.rs: occupied cells, as
absolute board coordinates `(x + j, y + i)`. -/
def Piece.get_blocks (p : Piece) : List (Int × Int) :=
  p.shape.enum.flatMap fun ir =>
    ir.2.enum.filterMap fun jc =>
      if jc.2 then some (p.x + (jc.1 : Int), p.y + (ir.1 : Int)) else none

/-- `InputDirection` from src/input/direction.rs. -/
inductive InputDirection where
  | Left | Right | Down
deriving DecidableEq

/-- `DirectionState` from src/input/direction.rs (timestamps as `Nat`). -/
structure DirectionState where
  pressed : Bool
  das_timer : Nat
  arr_timer : Nat
  das_charged : Bool
  initial_move_done : Bool
  last_update : Nat
deriving DecidableEq

/-- `DirectionState::new` (construction time modelled as instant 0). -/
def DirectionState.new : DirectionState :=
  { pressed := false, das_timer := 0, arr_timer := 0,
    das_charged := false, initial_move_done := false, last_update := 0 }

/-- `DirectionState::press` from src/input/direction.rs. -/
def DirectionState.press (s : DirectionState) (now : Nat) : DirectionState :=
  { s with pressed := true, das_timer := now, arr_timer := now,
           das_charged := false, initial_move_done := false, last_update := now }

/-- `DirectionState::release` from src/input/direction.rs. -/
def DirectionState.release (s : DirectionState) (now : Nat) : DirectionState :=
  { s with pressed := false, das_charged := false,
           initial_move_done := false, last_update := now }

/-- `DirectionState::reset_das` from src/input/direction.rs. -/
def DirectionState.reset_das (s : DirectionState) (now : Nat) : DirectionState :=
  if s.pressed then
    { s with das_timer := now, arr_timer := now, das_charged := false,
             initial_move_done := false, last_update := now }
  else s

/-- `InputState` from src/input/handler.rs. The source keeps the three
direction states in a `HashMap` keyed by the three `InputDirection`
values inserted at construction; here they are three fields. -/
structure InputState where
  left : DirectionState
  right : DirectionState
  down : DirectionState
  last_horizontal_dir : Option InputDirection
deriving DecidableEq

/-- `InputState::new` from src/input/handler.rs. -/
def InputState.new : InputState :=
  { left := DirectionState.new, right := DirectionState.new,
    down := DirectionState.new, last_horizontal_dir := none }

/-- Lookup of the per-direction state (the `HashMap` read). -/
def InputState.dir (s : InputState) : InputDirection → DirectionState
  | InputDirection.Left => s.left
  | InputDirection.Right => s.right
  | InputDirection.Down => s.down

/-- Write-back of the per-direction state (the `HashMap` `get_mut`). -/
def InputState.setDir (s : InputState) (d : InputDirection) (v : DirectionState) : InputState :=
  match d with
  | InputDirection.Left => { s with left := v }
  | InputDirection.Right => { s with right := v }
  | InputDirection.Down => { s with down := v }

/-- `InputState::release_direction` from src/input/handler.rs. -/
def InputState.release_direction (s : InputState) (d : InputDirection) (now : Nat) : InputState :=
  let s1 := s.setDir d ((s.dir d).release now)
  if s1.last_horizontal_dir = some d then { s1 with last_horizontal_dir := none } else s1

/-- `InputState::press_direction` from src/input/handler.rs: pressing one
horizontal direction first releases the other and records the new one as
the last horizontal direction, then marks the pressed state. -/
def InputState.press_direction (s : InputState) (d : InputDirection) (now : Nat) : InputState :=
  let s1 :=
    match d with
    | InputDirection.Left =>
        { s.release_direction InputDirection.Right now with
            last_horizontal_dir := some InputDirection.Left }
    | InputDirection.Right =>
        { s.release_direction InputDirection.Left now with
            last_horizontal_dir := some InputDirection.Right }
    | InputDirection.Down => s
  s1.setDir d ((s1.dir d).press now)

/-- `InputState::is_pressed` from src/input/handler.rs. -/
def InputState.is_pressed (s : InputState) (d : InputDirection) : Bool :=
  (s.dir d).pressed

/-- `InputState::reset_das_states` from src/input/handler.rs. -/
def InputState.reset_das_states (s : InputState) (now : Nat) : InputState :=
  { s with left := s.left.reset_das now, right := s.right.reset_das now,
           down := s.down.reset_das now }

/-- `GameState` from src/game/state.rs. -/
inductive GameState where
  | Ready
  | Countdown (n : Nat)
  | Playing
  | Finished
deriving DecidableEq

/-- The modelled fields of `Game` from src/game/state.rs (see the header
comment for the omitted pure-timer fields). -/
structure Game where
  board : Board
  current_piece : Option Piece
  next_pieces : List Piece
  hold_piece : Option Piece
  can_hold : Bool
  lines_cleared : Nat
  lines_remaining : Nat
  input_state : InputState
  game_state : GameState
  ground_timer : Option Nat
deriving DecidableEq

/-- `Game::fill_next_pieces` from src/game/state.rs: push `Piece::new` of
bag-drawn types until the queue holds 5 pieces; `refill` is the oracle of
types the 7-bag would produce. -/
def fill_next_pieces (q : List Piece) (refill : List PieceType) : List Piece :=
  q ++ (refill.take (5 - q.length)).map Piece.new

/-- `Game::new` from src/game/state.rs (bag abstracted to `bag`). -/
def Game.new (bag : List PieceType) : Game :=
  { board := empty_board
    current_piece := none
    next_pieces := fill_next_pieces [] bag
    hold_piece := none
    can_hold := true
    lines_cleared := 0
    lines_remaining := TARGET_LINES
    input_state := InputState.new
    game_state := GameState.Ready
    ground_timer := none }

/-- Read a board cell; the callers only do this at in-bounds coordinates,
exactly as the source. -/
def cellAt (b : Board) (x y : Int) : Cell :=
  (b.getD y.toNat []).getD x.toNat Cell.Empty

/-- `Game::is_valid_position` from src/game/state.rs: the loop with early
`return false` on `x < 0 || x >= BOARD_WIDTH || y >= BOARD_HEIGHT` and on
`y >= 0 && board[y][x] != Empty` becomes a conjunction over all blocks. -/
def Game.is_valid_position (g : Game) (p : Piece) : Bool :=
  p.get_blocks.all fun xy =>
    (decide (0 ≤ xy.1) && decide (xy.1 < (BOARD_WIDTH : Int)) &&
     decide (xy.2 < (BOARD_HEIGHT : Int))) &&
    (decide (xy.2 < 0) || decide (cellAt g.board xy.1 xy.2 = Cell.Empty))

/-- `Game::move_piece` from src/game/state.rs. Returns the updated game
and the `bool` result. -/
def Game.move_piece (g : Game) (now : Nat) (dx dy : Int) : Game × Bool :=
  if g.game_state ≠ GameState.Playing then (g, false)
  else
    match g.current_piece with
    | none => (g, false)
    | some piece =>
        let test_piece := { piece with x := piece.x + dx, y := piece.y + dy }
        if g.is_valid_position test_piece then
          let g1 := { g with current_piece := some test_piece }
          let g2 := if dx ≠ 0 then { g1 with ground_timer := none } else g1
          (g2, true)
        else
          let g1 :=
            if dy > 0 ∧ g.ground_timer = none then { g with ground_timer := some now } else g
          (g1, false)

/-- The wall-kick offset tables from `Game::rotate_piece` (and the other
two rotation entry points, which use the same tables). -/
def kicksFor (t : PieceType) : List (Int × Int) :=
  match t with
  | PieceType.I => [(1, 0), (-1, 0), (2, 0), (-2, 0), (0, -1)]
  | _ => [(1, 0), (-1, 0), (0, -1), (1, -1), (-1, -1)]

/-- The kick loop shared by the three rotation entry points: try each
offset on the rotated piece, accept the first valid one. -/
def Game.tryKicks (g : Game) (rotated : Piece) : List (Int × Int) → Game × Bool
  | [] => (g, false)
  | k :: rest =>
      let kicked := { rotated with x := rotated.x + k.1, y := rotated.y + k.2 }
      if g.is_valid_position kicked then ({ g with current_piece := some kicked }, true)
      else g.tryKicks rotated rest

/-- The common body of `Game::rotate_piece`, `Game::rotate_piece_left`
and `Game::rotate_piece_180` (the source repeats it verbatim three times
with a different rotation transform): try the rotation in place, then the
kick offsets in order; `false` and no change if everything fails. -/
def Game.rotateWith (g : Game) (rot : Piece → Piece) : Game × Bool :=
  match g.current_piece with
  | none => (g, false)
  | some piece =>
      let rotated := rot piece
      if g.is_valid_position rotated then ({ g with current_piece := some rotated }, true)
      else g.tryKicks rotated (kicksFor piece.piece_type)

/-- `Game::rotate_piece` from src/game/state.rs. -/
def Game.rotate_piece (g : Game) : Game × Bool :=
  g.rotateWith Piece.rotate_clockwise

/-- `Game::rotate_piece_left` from src/game/state.rs. -/
def Game.rotate_piece_left (g : Game) : Game × Bool :=
  g.rotateWith Piece.rotate_counter_clockwise

/-- `Game::rotate_piece_180` from src/game/state.rs. -/
def Game.rotate_piece_180 (g : Game) : Game × Bool :=
  g.rotateWith Piece.rotate_180

/-- `Game::spawn_piece` from src/game/state.rs. -/
def Game.spawn_piece (g : Game) (refill : List PieceType) : Game :=
  if g.game_state ≠ GameState.Playing then g
  else
    let g1 :=
      match g.next_pieces with
      | [] => g
      | p :: rest =>
          { g with current_piece := some p, next_pieces := fill_next_pieces rest refill }
    let g2 := { g1 with can_hold := true, ground_timer := none }
    match g2.current_piece with
    | some piece =>
        if ¬ g2.is_valid_position piece then { g2 with game_state := GameState.Finished }
        else g2
    | none => g2

/-- `Game::hold_piece` from src/game/state.rs (named `hold_piece_op` here
because `hold_piece` is already the storage field, as in the source
struct). -/
def Game.hold_piece_op (g : Game) (refill : List PieceType) : Game :=
  if ¬ g.can_hold ∨ g.game_state ≠ GameState.Playing then g
  else
    match g.current_piece with
    | none => g
    | some current =>
        let g0 := { g with current_piece := none }
        let g1 :=
          match g0.hold_piece with
          | some held => { g0 with current_piece := some held, hold_piece := none }
          | none =>
              match g0.next_pieces with
              | [] => g0
              | p :: rest =>
                  { g0 with current_piece := some p,
                            next_pieces := fill_next_pieces rest refill }
        let held_piece : Piece :=
          { current with x := ((BOARD_WIDTH : Int) - 4) / 2, y := 0 }
        let g2 := { g1 with hold_piece := some held_piece, can_hold := false }
        match g2.current_piece with
        | some piece =>
            if ¬ g2.is_valid_position piece then { g2 with game_state := GameState.Finished }
            else g2
        | none => g2

/-- Write a board cell (callers guard the bounds, as in the source). -/
def setCellAt (b : Board) (x y : Int) (c : Cell) : Board :=
  b.set y.toNat ((b.getD y.toNat []).set x.toNat c)

/-- The stamping loop of `Game::lock_piece`: every in-bounds occupied
cell becomes `Filled color`. -/
def lockBlocks (b : Board) (color : Color) : List (Int × Int) → Board
  | [] => b
  | xy :: rest =>
      let b1 :=
        if 0 ≤ xy.2 ∧ xy.2 < (BOARD_HEIGHT : Int) ∧ 0 ≤ xy.1 ∧ xy.1 < (BOARD_WIDTH : Int)
        then setCellAt b xy.1 xy.2 (Cell.Filled color)
        else b
      lockBlocks b1 color rest

/-- The row-full test of `Game::clear_lines`:
`board[row].iter().all(|&cell| cell != Cell::Empty)`. -/
def rowIsFull (r : List Cell) : Bool :=
  r.all fun c => decide (c ≠ Cell.Empty)

/-- The bottom-up compaction loop of `Game::clear_lines`: `rows` is the
descending list of read rows, `w` the write cursor, `n` the cleared-line
count. -/
def clearLoop : List Nat → Board → Nat → Nat → Board × Nat × Nat
  | [], b, w, n => (b, w, n)
  | r :: rs, b, w, n =>
      if ¬ rowIsFull (b.getD r []) then
        let b1 := if r ≠ w then b.set w (b.getD r []) else b
        let w1 := if w > 0 then w - 1 else w
        clearLoop rs b1 w1 n
      else
        clearLoop rs b w (n + 1)

/-- The trailing fill loop of `Game::clear_lines`:
`for row in 0..=write_row { board[row] = [Empty; WIDTH] }`. -/
def fillTopRows (b : Board) (w : Nat) : Board :=
  (List.range (w + 1)).foldl (fun bb row => bb.set row emptyRow) b

/-- `Game::clear_lines` from src/game/state.rs, as a function of the
board (the source method reads and writes only `self.board`). -/
def clear_lines (b : Board) : Board × Nat :=
  let res := clearLoop (List.range BOARD_HEIGHT).reverse b (BOARD_HEIGHT - 1) 0
  (fillTopRows res.1 res.2.1, res.2.2)

/-- `Game::update_lines` from src/game/state.rs (`saturating_sub` is
`Nat` subtraction; the run-timer snapshot on finish is omitted). -/
def Game.update_lines (g : Game) (lines : Nat) : Game :=
  let g1 := { g with lines_cleared := g.lines_cleared + lines,
                     lines_remaining := g.lines_remaining - lines }
  if g1.lines_remaining = 0 then { g1 with game_state := GameState.Finished } else g1

/-- `Game::lock_piece` from src/game/state.rs. -/
def Game.lock_piece (g : Game) (now : Nat) (refill : List PieceType) : Game :=
  let gA :=
    match g.current_piece with
    | some piece => { g with board := lockBlocks g.board piece.color piece.get_blocks }
    | none => g
  let gB := { gA with current_piece := none }
  let cl := clear_lines gB.board
  let gC := { gB with board := cl.1 }
  let gD := gC.update_lines cl.2
  let gE := { gD with input_state := gD.input_state.reset_das_states now }
  gE.spawn_piece refill

/-- The `while self.move_piece(0, 1) {}` loop of `Game::hard_drop`, with
explicit fuel (the source loop terminates because each successful step
strictly increases `y`, which valid positions bound by the board height). -/
def Game.dropLoop : Nat → Game → Nat → Game
  | 0, g, _ => g
  | fuel + 1, g, now =>
      let r := g.move_piece now 0 1
      if r.2 then Game.dropLoop fuel r.1 now else r.1

/-- `Game::hard_drop` from src/game/state.rs. -/
def Game.hard_drop (g : Game) (fuel : Nat) (now : Nat) (refill : List PieceType) : Game :=
  (Game.dropLoop fuel g now).lock_piece now refill

/-- `Game::start_countdown` from src/game/state.rs. -/
def Game.start_countdown (g : Game) : Game :=
  if g.game_state = GameState.Ready then { g with game_state := GameState.Countdown 3 }
  else g

/-- `Game::start_game` from src/game/state.rs (run-timer start omitted). -/
def Game.start_game (g : Game) (refill : List PieceType) : Game :=
  ({ g with game_state := GameState.Playing }).spawn_piece refill

/-- `Game::reset` from src/game/state.rs: fresh state that auto-starts
the countdown (bag abstracted to `bag`, as for `Game.new`). -/
def Game.reset (bag : List PieceType) : Game :=
  { board := empty_board
    current_piece := none
    next_pieces := fill_next_pieces [] bag
    hold_piece := none
    can_hold := true
    lines_cleared := 0
    lines_remaining := TARGET_LINES
    input_state := InputState.new
    game_state := GameState.Countdown 3
    ground_timer := none }

/-! Concrete states used to instantiate or refute claims. -/

/-- A Playing-state game over an empty board with the given active piece
and ground timer (all other fields as after a fresh start). -/
def playingGameWith (p : Piece) (gt : Option Nat) : Game :=
  { board := empty_board
    current_piece := some p
    next_pieces := []
    hold_piece := none
    can_hold := true
    lines_cleared := 0
    lines_remaining := TARGET_LINES
    input_state := InputState.new
    game_state := GameState.Playing
    ground_timer := gt }

/-- The outcomes of `n` successive `move_piece(0, 1)` calls. -/
def dropResults : Nat → Game → List Bool
  | 0, _ => []
  | n + 1, g =>
      let r := g.move_piece 0 0 1
      r.2 :: dropResults n r.1

/-- The ordered candidate list a rotation entry point works through: the
rotated piece in place, then the rotated piece displaced by each kick
offset of the piece type, in table order. -/
def kickCandidates (rotated : Piece) (t : PieceType) : List Piece :=
  rotated :: (kicksFor t).map fun k =>
    { rotated with x := rotated.x + k.1, y := rotated.y + k.2 }

/-- A board with a single `Filled` cell in the top row and no full row. -/
def topCellBoard : Board :=
  (Cell.Filled Color.Cyan :: List.replicate 9 Cell.Empty) :: List.replicate 19 emptyRow

/-- A Playing-state game whose ground timer is running while the active
O piece can still move down (as after a rejected drop followed by a kick
that freed the piece: rotations never clear the timer). -/
def groundedGame : Game :=
  playingGameWith (Piece.new PieceType.O) (some 0)

/-- A Finished-state game that still holds an active T piece, as after a
spawn-collision top-out (lifecycle is `Finished`, `current_piece` is
`Some`). -/
def finishedWithPiece : Game :=
  { playingGameWith (Piece.new PieceType.T) none with game_state := GameState.Finished }

/-- A shape matrix is square: every row is as long as the row list. All
shapes produced by `Piece.new` are square, and the rotation transforms
preserve squareness. -/
def IsSquareShape (s : List (List Bool)) : Prop :=
  ∀ r ∈ s, r.length = s.length

instance (s : List (List Bool)) : Decidable (IsSquareShape s) :=
  inferInstanceAs (Decidable (∀ r ∈ s, r.length = s.length))

/-- An input-layer event: a `press_direction` or `release_direction`
call, with the instant at which it happens. -/
inductive InputOp where
  | press (d : InputDirection) (now : Nat)
  | release (d : InputDirection) (now : Nat)

def applyInputOp (s : InputState) : InputOp → InputState
  | InputOp.press d now => s.press_direction d now
  | InputOp.release d now => s.release_direction d now

def applyInputOps (s : InputState) (ops : List InputOp) : InputState :=
  ops.foldl applyInputOp s

/-- A cell is not a ghost cell. -/
def cellNoGhost : Cell → Bool
  | Cell.Ghost _ => false
  | _ => true

def rowNoGhost (r : List Cell) : Bool := r.all cellNoGhost

def boardNoGhost (b : Board) : Bool := b.all rowNoGhost

/-- The engine states reachable from a fresh or reset engine through the
public operations. Bag draws, refill contents, timestamps, move deltas
and drop fuel are universally quantified, so this over-approximates the
states any run can reach. The per-frame `update` mutates the board only
through `move_piece` and `lock_piece`, which are both covered. -/
inductive Reachable : Game → Prop where
  | new_game (bag : List PieceType) : Reachable (Game.new bag)
  | reset_game (bag : List PieceType) : Reachable (Game.reset bag)
  | countdown {g : Game} (h : Reachable g) : Reachable g.start_countdown
  | begin_play {g : Game} (h : Reachable g) (refill : List PieceType) :
      Reachable (g.start_game refill)
  | spawn {g : Game} (h : Reachable g) (refill : List PieceType) :
      Reachable (g.spawn_piece refill)
  | move {g : Game} (h : Reachable g) (now : Nat) (dx dy : Int) :
      Reachable (g.move_piece now dx dy).1
  | rotate {g : Game} (h : Reachable g) : Reachable g.rotate_piece.1
  | rotate_left {g : Game} (h : Reachable g) : Reachable g.rotate_piece_left.1
  | rotate_180 {g : Game} (h : Reachable g) : Reachable g.rotate_piece_180.1
  | hold {g : Game} (h : Reachable g) (refill : List PieceType) :
      Reachable (g.hold_piece_op refill)
  | lock {g : Game} (h : Reachable g) (now : Nat) (refill : List PieceType) :
      Reachable (g.lock_piece now refill)
  | drop {g : Game} (h : Reachable g) (fuel now : Nat) (refill : List PieceType) :
      Reachable (g.hard_drop fuel now refill)
  | input_press {g : Game} (h : Reachable g) (d : InputDirection) (now : Nat) :
      Reachable { g with input_state := g.input_state.press_direction d now }
  | input_release {g : Game} (h : Reachable g) (d : InputDirection) (now : Nat) :
      Reachable { g with input_state := g.input_state.release_direction d now }

/-! Claim theorems. -/

/-- C1: the claim says `clear_lines` returns 0 and leaves the board
unchanged when no row is full; on `topCellBoard` (no full row, one
`Filled` cell at row 0, column 0) the code instead returns 0 but erases
the top row, producing the empty board. The trailing fill loop runs over
`0..=write_row` and `write_row` ends at 0 after a scan that clears
nothing, so row 0 is overwritten even though no line was removed. -/
theorem C1_clear_lines_wipes_top_row :
    (clear_lines topCellBoard).2 = 0 ∧
      (clear_lines topCellBoard).1 = empty_board ∧
      topCellBoard ≠ empty_board := by decide

/-- C3 counterexample: in `groundedGame` the ground timer is running and
`move_piece(0, 1)` succeeds, yet the timer is still `some 0` afterwards —
refuting the claim that a successful downward move clears it. -/
theorem C3_counterexample :
    (groundedGame.move_piece 5 0 1).2 = true ∧
      (groundedGame.move_piece 5 0 1).1.ground_timer = some 0 := by decide

/-- C3 amended: on a successful move the ground timer is cleared iff the
move was horizontal (`dx ≠ 0`); a successful purely vertical move leaves
it untouched; on a rejected downward attempt (`dy > 0` returning false, in
the Playing state with an active piece) the timer starts if not already
running, and otherwise a rejected attempt leaves it untouched. -/
theorem C3_ground_timer_amended (g : Game) (now : Nat) (dx dy : Int) :
    ((g.move_piece now dx dy).2 = true →
      (g.move_piece now dx dy).1.ground_timer =
        if dx ≠ 0 then none else g.ground_timer)
    ∧ (g.game_state = GameState.Playing → g.current_piece ≠ none →
      (g.move_piece now dx dy).2 = false →
      (g.move_piece now dx dy).1.ground_timer =
        if dy > 0 ∧ g.ground_timer = none then some now else g.ground_timer) := by
  unfold Game.move_piece
  split
  · rename_i hs
    exact ⟨fun h => by simp at h, fun hp => absurd hp hs⟩
  · split
    · rename_i hc
      exact ⟨fun h => by simp at h, fun _ hp => absurd hc hp⟩
    · dsimp only
      split
      · by_cases hdx : dx ≠ 0 <;> simp [hdx]
      · by_cases hgt : dy > 0 ∧ g.ground_timer = none <;> simp [hgt]

/-- C3 amended, instantiated: a successful horizontal move from
`groundedGame` clears the running ground timer. -/
theorem C3_amended_witness :
    (groundedGame.move_piece 5 1 0).1.ground_timer =
      if (1 : Int) ≠ 0 then none else groundedGame.ground_timer :=
  (C3_ground_timer_amended groundedGame 5 1 0).1 (by decide)

/-- C4 counterexample: on the empty board with a fresh O piece, of 19
successive `move_piece(0, 1)` calls the 18th (index 17) still succeeds,
and 18 calls succeed in total — refuting the claimed 17 successes with
failure from the 18th call on. -/
theorem C4_counterexample :
    (dropResults 19 (playingGameWith (Piece.new PieceType.O) none)).getD 17 false = true ∧
      (dropResults 19 (playingGameWith (Piece.new PieceType.O) none)).count true = 18 := by
  decide

/-- C4 amended: on an empty 10x20 board in the Playing state with a
freshly spawned O piece at the default spawn column, 19 successive
`move_piece(0, 1)` calls succeed exactly 18 times and fail from the 19th
call onward: the height-2 piece starts with its bottom cells at row 1 and
rests with them at row 19. -/
theorem C4_o_piece_drop_count :
    dropResults 19 (playingGameWith (Piece.new PieceType.O) none) =
      List.replicate 18 true ++ [false] := by decide

/-- C5 counterexample: in the Finished state with an active T piece
(`finishedWithPiece`, as after a top-out), `rotate_piece` is not a
guarded no-op: it returns true and changes the engine state — refuting
the claim that every listed operation outside Playing leaves the state
unchanged and returns false. -/
theorem C5_counterexample :
    finishedWithPiece.rotate_piece.2 = true ∧
      finishedWithPiece.rotate_piece.1 ≠ finishedWithPiece := by decide

/-- C5 amended: the operations that carry a lifecycle guard are guarded
no-ops — `move_piece` outside Playing returns false and changes nothing,
`spawn_piece` and `hold_piece` outside Playing change nothing,
`hold_piece` with holding disabled or no active piece changes nothing,
and the three rotation operations with no active piece return false and
change nothing; the rotation operations and `hard_drop`/`lock_piece`
carry no lifecycle guard, so with an active piece present they can act
even outside Playing. -/
theorem C5_guarded_noops_amended (g : Game) (now : Nat) (dx dy : Int)
    (refill : List PieceType) :
    (g.game_state ≠ GameState.Playing →
      g.move_piece now dx dy = (g, false) ∧
      g.spawn_piece refill = g ∧
      g.hold_piece_op refill = g)
    ∧ (g.can_hold = false → g.hold_piece_op refill = g)
    ∧ (g.current_piece = none →
      g.hold_piece_op refill = g ∧
      g.rotate_piece = (g, false) ∧
      g.rotate_piece_left = (g, false) ∧
      g.rotate_piece_180 = (g, false)) := by
  refine ⟨fun hs => ⟨?_, ?_, ?_⟩, fun hch => ?_, fun hc => ⟨?_, ?_, ?_, ?_⟩⟩
  · unfold Game.move_piece
    simp [hs]
  · unfold Game.spawn_piece
    simp [hs]
  · unfold Game.hold_piece_op
    simp [hs]
  · unfold Game.hold_piece_op
    simp [hch]
  · unfold Game.hold_piece_op
    split
    · rfl
    · rw [hc]
  · unfold Game.rotate_piece Game.rotateWith
    rw [hc]
  · unfold Game.rotate_piece_left Game.rotateWith
    rw [hc]
  · unfold Game.rotate_piece_180 Game.rotateWith
    rw [hc]

/-- C5 amended, instantiated at a fresh (Ready-state) engine: all the
guarded operations leave it unchanged. -/
theorem C5_amended_witness :
    ((Game.new [PieceType.I]).move_piece 0 1 0 = (Game.new [PieceType.I], false) ∧
      (Game.new [PieceType.I]).spawn_piece [] = Game.new [PieceType.I] ∧
      (Game.new [PieceType.I]).hold_piece_op [] = Game.new [PieceType.I]) :=
  (C5_guarded_noops_amended (Game.new [PieceType.I]) 0 1 0 []).1 (by decide)

/-- C2: `is_valid_position` is true iff every occupied cell `(x, y)` of
the piece satisfies `0 ≤ x < 10` and `y < 20` and, whenever `y ≥ 0`, the
board cell there is Empty; cells with `y < 0` are exempt from the
occupancy test but still bound-checked horizontally. -/
theorem C2_is_valid_position_iff (g : Game) (p : Piece) :
    g.is_valid_position p = true ↔
      ∀ xy ∈ p.get_blocks,
        0 ≤ xy.1 ∧ xy.1 < 10 ∧ xy.2 < 20 ∧
          (0 ≤ xy.2 → cellAt g.board xy.1 xy.2 = Cell.Empty) := by
  unfold Game.is_valid_position
  rw [List.all_eq_true]
  constructor
  · intro h xy hm
    have hx := h xy hm
    simp only [BOARD_WIDTH, BOARD_HEIGHT, Bool.and_eq_true, Bool.or_eq_true,
      decide_eq_true_eq, Nat.cast_ofNat] at hx
    refine ⟨hx.1.1.1, hx.1.1.2, hx.1.2, fun hy => ?_⟩
    rcases hx.2 with h1 | h2
    · omega
    · exact h2
  · intro h xy hm
    obtain ⟨h1, h2, h3, h4⟩ := h xy hm
    simp only [BOARD_WIDTH, BOARD_HEIGHT, Bool.and_eq_true, Bool.or_eq_true,
      decide_eq_true_eq, Nat.cast_ofNat]
    refine ⟨⟨⟨h1, h2⟩, h3⟩, ?_⟩
    by_cases hy : xy.2 < 0
    · exact Or.inl hy
    · exact Or.inr (h4 (by omega))

/-- C9: a performed hold (Playing, holding enabled, active piece present)
stores a piece whose position is reset to the spawn offset
`x = (WIDTH - 4) / 2 = 3, y = 0` while its shape matrix, type and color
are exactly those the active piece had at the moment of the hold. -/
theorem C9_hold_resets_position_keeps_shape (g : Game) (p : Piece)
    (refill : List PieceType) (h1 : g.game_state = GameState.Playing)
    (h2 : g.can_hold = true) (h3 : g.current_piece = some p) :
    ∃ q, (g.hold_piece_op refill).hold_piece = some q ∧
      q.x = ((10 : Int) - 4) / 2 ∧ q.y = 0 ∧
      q.shape = p.shape ∧ q.piece_type = p.piece_type ∧ q.color = p.color := by
  have key : (g.hold_piece_op refill).hold_piece
      = some { p with x := ((BOARD_WIDTH : Int) - 4) / 2, y := 0 } := by
    unfold Game.hold_piece_op
    rw [if_neg (by simp [h1, h2]), h3]
    dsimp only
    split
    · split <;> rfl
    · split
      · rfl
      · split <;> rfl
  exact ⟨_, key, by norm_num [BOARD_WIDTH], rfl, rfl, rfl, rfl⟩

/-- C9, instantiated: holding the active T piece of a fresh playing game
stores it at the spawn offset with its shape intact. -/
theorem C9_witness :
    ∃ q, ((playingGameWith (Piece.new PieceType.T) none).hold_piece_op
            [PieceType.I]).hold_piece = some q ∧
      q.x = ((10 : Int) - 4) / 2 ∧ q.y = 0 ∧
      q.shape = (Piece.new PieceType.T).shape ∧
      q.piece_type = (Piece.new PieceType.T).piece_type ∧
      q.color = (Piece.new PieceType.T).color :=
  C9_hold_resets_position_keeps_shape (playingGameWith (Piece.new PieceType.T) none)
    (Piece.new PieceType.T) [PieceType.I] rfl rfl rfl

/-- The kick loop accepts exactly the first valid piece among the kicked
candidates, in list order. -/
theorem tryKicks_eq_find (g : Game) (rotated : Piece) (ks : List (Int × Int)) :
    g.tryKicks rotated ks =
      match (ks.map fun k =>
          { rotated with x := rotated.x + k.1, y := rotated.y + k.2 }).find?
            (fun q => g.is_valid_position q) with
      | some q => ({ g with current_piece := some q }, true)
      | none => (g, false) := by
  induction ks with
  | nil => rfl
  | cons k rest ih =>
      rw [List.map_cons]
      by_cases hv : g.is_valid_position
          { rotated with x := rotated.x + k.1, y := rotated.y + k.2 }
      · rw [List.find?_cons_of_pos _ hv]
        unfold Game.tryKicks
        rw [if_pos hv]
      · rw [List.find?_cons_of_neg _ hv]
        unfold Game.tryKicks
        rw [if_neg hv, ih]

/-- C6: with an active piece `p`, each rotation entry point is decided by
the first valid candidate of `kickCandidates` (the rotated piece in
place, then the kicks in table order): that candidate is installed and
true is returned, and if no candidate is valid the game is unchanged and
false is returned; the kick table is `(1,0),(-1,0),(2,0),(-2,0),(0,-1)`
for the I piece and `(1,0),(-1,0),(0,-1),(1,-1),(-1,-1)` for every other
type. -/
theorem C6_rotation_kick_order (g : Game) (p : Piece)
    (h : g.current_piece = some p) :
    (g.rotate_piece =
      match (kickCandidates p.rotate_clockwise p.piece_type).find?
          (fun q => g.is_valid_position q) with
      | some q => ({ g with current_piece := some q }, true)
      | none => (g, false))
    ∧ (g.rotate_piece_left =
      match (kickCandidates p.rotate_counter_clockwise p.piece_type).find?
          (fun q => g.is_valid_position q) with
      | some q => ({ g with current_piece := some q }, true)
      | none => (g, false))
    ∧ (g.rotate_piece_180 =
      match (kickCandidates p.rotate_180 p.piece_type).find?
          (fun q => g.is_valid_position q) with
      | some q => ({ g with current_piece := some q }, true)
      | none => (g, false))
    ∧ kicksFor PieceType.I = [(1, 0), (-1, 0), (2, 0), (-2, 0), (0, -1)]
    ∧ (∀ t, t ≠ PieceType.I →
        kicksFor t = [(1, 0), (-1, 0), (0, -1), (1, -1), (-1, -1)]) := by
  refine ⟨?_, ?_, ?_, rfl, fun t ht => by cases t <;> simp_all [kicksFor]⟩
  · unfold Game.rotate_piece Game.rotateWith
    rw [h]
    dsimp only [kickCandidates]
    by_cases hv : g.is_valid_position p.rotate_clockwise
    · rw [if_pos hv, List.find?_cons_of_pos _ hv]
    · rw [if_neg hv, List.find?_cons_of_neg _ hv, tryKicks_eq_find]
  · unfold Game.rotate_piece_left Game.rotateWith
    rw [h]
    dsimp only [kickCandidates]
    by_cases hv : g.is_valid_position p.rotate_counter_clockwise
    · rw [if_pos hv, List.find?_cons_of_pos _ hv]
    · rw [if_neg hv, List.find?_cons_of_neg _ hv, tryKicks_eq_find]
  · unfold Game.rotate_piece_180 Game.rotateWith
    rw [h]
    dsimp only [kickCandidates]
    by_cases hv : g.is_valid_position p.rotate_180
    · rw [if_pos hv, List.find?_cons_of_pos _ hv]
    · rw [if_neg hv, List.find?_cons_of_neg _ hv, tryKicks_eq_find]

/-- C6, instantiated: the theorem applied to a playing game holding a T
piece yields the I-piece kick table. -/
theorem C6_witness :
    kicksFor PieceType.I = [(1, 0), (-1, 0), (2, 0), (-2, 0), (0, -1)] :=
  (C6_rotation_kick_order (playingGameWith (Piece.new PieceType.T) none)
    (Piece.new PieceType.T) rfl).2.2.2.1

/-! Shape-matrix lemmas for the rotation algebra. -/

theorem getCell_eq_getElem (s : List (List Bool)) (i j : Nat)
    (hi : i < s.length) (hj : j < s[i].length) :
    getCell s i j = s[i][j] := by
  unfold getCell
  rw [List.getD_eq_getElem?_getD s i [], List.getElem?_eq_getElem hi, Option.getD_some,
    List.getD_eq_getElem?_getD, List.getElem?_eq_getElem hj, Option.getD_some]

theorem getCell_map_range (f : Nat → Nat → Bool) (n a b : Nat)
    (ha : a < n) (hb : b < n) :
    getCell ((List.range n).map fun i => (List.range n).map fun j => f i j) a b
      = f a b := by
  unfold getCell
  simp [List.getD_eq_getElem?_getD, List.getElem?_map, List.getElem?_range ha,
    List.getElem?_range hb]

theorem length_rotCWshape (s : List (List Bool)) :
    (rotCWshape s).length = s.length := by
  simp [rotCWshape]

theorem length_rotCCWshape (s : List (List Bool)) :
    (rotCCWshape s).length = s.length := by
  simp [rotCCWshape]

theorem isSquare_rotCWshape (s : List (List Bool)) :
    IsSquareShape (rotCWshape s) := by
  intro r hr
  rw [length_rotCWshape]
  unfold rotCWshape at hr
  obtain ⟨a, _, rfl⟩ := List.mem_map.1 hr
  simp

theorem isSquare_rotCCWshape (s : List (List Bool)) :
    IsSquareShape (rotCCWshape s) := by
  intro r hr
  rw [length_rotCCWshape]
  unfold rotCCWshape at hr
  obtain ⟨a, _, rfl⟩ := List.mem_map.1 hr
  simp

theorem getCell_rotCWshape (s : List (List Bool)) (a b : Nat)
    (ha : a < s.length) (hb : b < s.length) :
    getCell (rotCWshape s) a b = getCell s (s.length - 1 - b) a := by
  unfold rotCWshape
  exact getCell_map_range _ _ _ _ ha hb

theorem getCell_rotCCWshape (s : List (List Bool)) (a b : Nat)
    (ha : a < s.length) (hb : b < s.length) :
    getCell (rotCCWshape s) a b = getCell s b (s.length - 1 - a) := by
  unfold rotCCWshape
  exact getCell_map_range _ _ _ _ ha hb

/-- Extensionality for square shape matrices via `getCell`. -/
theorem shape_ext (s t : List (List Bool)) (hlen : s.length = t.length)
    (hs : IsSquareShape s) (ht : IsSquareShape t)
    (hcell : ∀ a b, a < s.length → b < s.length → getCell s a b = getCell t a b) :
    s = t := by
  apply List.ext_getElem hlen
  intro i h1 h2
  have hrs : s[i].length = s.length := hs _ (List.getElem_mem h1)
  have hrt : t[i].length = t.length := ht _ (List.getElem_mem h2)
  apply List.ext_getElem (by omega)
  intro j hj1 hj2
  rw [← getCell_eq_getElem s i j h1 hj1, ← getCell_eq_getElem t i j h2 hj2]
  exact hcell i j h1 (by omega)

/-- Two clockwise turns read the source at the 180-degree index. -/
theorem getCell_rotCWshape_twice (s : List (List Bool)) (a b : Nat)
    (ha : a < s.length) (hb : b < s.length) :
    getCell (rotCWshape (rotCWshape s)) a b
      = getCell s (s.length - 1 - a) (s.length - 1 - b) := by
  have h1 := getCell_rotCWshape (rotCWshape s) a b
    (by rw [length_rotCWshape]; exact ha) (by rw [length_rotCWshape]; exact hb)
  rw [length_rotCWshape] at h1
  rw [h1, getCell_rotCWshape s _ _ (by omega) ha]

/-- Two counter-clockwise turns read the source at the 180-degree index. -/
theorem getCell_rotCCWshape_twice (s : List (List Bool)) (a b : Nat)
    (ha : a < s.length) (hb : b < s.length) :
    getCell (rotCCWshape (rotCCWshape s)) a b
      = getCell s (s.length - 1 - a) (s.length - 1 - b) := by
  have h1 := getCell_rotCCWshape (rotCCWshape s) a b
    (by rw [length_rotCCWshape]; exact ha) (by rw [length_rotCCWshape]; exact hb)
  rw [length_rotCCWshape] at h1
  rw [h1, getCell_rotCCWshape s _ _ hb (by omega)]

theorem rotCWshape_four (s : List (List Bool)) (hs : IsSquareShape s) :
    rotCWshape (rotCWshape (rotCWshape (rotCWshape s))) = s := by
  have l2 : (rotCWshape (rotCWshape s)).length = s.length := by
    rw [length_rotCWshape, length_rotCWshape]
  have l4 : (rotCWshape (rotCWshape (rotCWshape (rotCWshape s)))).length = s.length := by
    rw [length_rotCWshape, length_rotCWshape, l2]
  apply shape_ext _ _ l4 (isSquare_rotCWshape _) hs
  intro a b ha hb
  rw [l4] at ha hb
  have h1 := getCell_rotCWshape_twice (rotCWshape (rotCWshape s)) a b
    (by rw [l2]; exact ha) (by rw [l2]; exact hb)
  rw [l2] at h1
  rw [h1, getCell_rotCWshape_twice s _ _ (by omega) (by omega)]
  congr 1 <;> omega

theorem rotCCWshape_four (s : List (List Bool)) (hs : IsSquareShape s) :
    rotCCWshape (rotCCWshape (rotCCWshape (rotCCWshape s))) = s := by
  have l2 : (rotCCWshape (rotCCWshape s)).length = s.length := by
    rw [length_rotCCWshape, length_rotCCWshape]
  have l4 : (rotCCWshape (rotCCWshape (rotCCWshape (rotCCWshape s)))).length = s.length := by
    rw [length_rotCCWshape, length_rotCCWshape, l2]
  apply shape_ext _ _ l4 (isSquare_rotCCWshape _) hs
  intro a b ha hb
  rw [l4] at ha hb
  have h1 := getCell_rotCCWshape_twice (rotCCWshape (rotCCWshape s)) a b
    (by rw [l2]; exact ha) (by rw [l2]; exact hb)
  rw [l2] at h1
  rw [h1, getCell_rotCCWshape_twice s _ _ (by omega) (by omega)]
  congr 1 <;> omega

theorem rotCWshape_rotCCWshape (s : List (List Bool)) (hs : IsSquareShape s) :
    rotCWshape (rotCCWshape s) = s := by
  have l2 : (rotCWshape (rotCCWshape s)).length = s.length := by
    rw [length_rotCWshape, length_rotCCWshape]
  apply shape_ext _ _ l2 (isSquare_rotCWshape _) hs
  intro a b ha hb
  rw [l2] at ha hb
  have h1 := getCell_rotCWshape (rotCCWshape s) a b
    (by rw [length_rotCCWshape]; exact ha) (by rw [length_rotCCWshape]; exact hb)
  rw [length_rotCCWshape] at h1
  rw [h1, getCell_rotCCWshape s _ _ (by omega) ha]
  congr 1
  omega

theorem rotCCWshape_rotCWshape (s : List (List Bool)) (hs : IsSquareShape s) :
    rotCCWshape (rotCWshape s) = s := by
  have l2 : (rotCCWshape (rotCWshape s)).length = s.length := by
    rw [length_rotCCWshape, length_rotCWshape]
  apply shape_ext _ _ l2 (isSquare_rotCCWshape _) hs
  intro a b ha hb
  rw [l2] at ha hb
  have h1 := getCell_rotCCWshape (rotCWshape s) a b
    (by rw [length_rotCWshape]; exact ha) (by rw [length_rotCWshape]; exact hb)
  rw [length_rotCWshape] at h1
  rw [h1, getCell_rotCWshape s _ _ hb (by omega)]
  congr 1
  omega

/-- C7: for a piece with a square shape matrix (as every engine piece
has), four clockwise turns, four counter-clockwise turns, and either
composition of a clockwise with a counter-clockwise turn restore the
piece exactly; each single rotation (cw, ccw, 180) keeps the matrix
size, the position, the type and the color. Rotation is a function of
the piece alone (its type never mentions the board). -/
theorem C7_rotation_algebra (p : Piece) (h : IsSquareShape p.shape) :
    p.rotate_clockwise.rotate_clockwise.rotate_clockwise.rotate_clockwise = p
    ∧ p.rotate_counter_clockwise.rotate_counter_clockwise.rotate_counter_clockwise.rotate_counter_clockwise
        = p
    ∧ p.rotate_counter_clockwise.rotate_clockwise = p
    ∧ p.rotate_clockwise.rotate_counter_clockwise = p
    ∧ (p.rotate_clockwise.shape.length = p.shape.length
        ∧ p.rotate_clockwise.x = p.x ∧ p.rotate_clockwise.y = p.y
        ∧ p.rotate_clockwise.piece_type = p.piece_type
        ∧ p.rotate_clockwise.color = p.color)
    ∧ (p.rotate_counter_clockwise.shape.length = p.shape.length
        ∧ p.rotate_counter_clockwise.x = p.x ∧ p.rotate_counter_clockwise.y = p.y
        ∧ p.rotate_counter_clockwise.piece_type = p.piece_type
        ∧ p.rotate_counter_clockwise.color = p.color)
    ∧ (p.rotate_180.shape.length = p.shape.length
        ∧ p.rotate_180.x = p.x ∧ p.rotate_180.y = p.y
        ∧ p.rotate_180.piece_type = p.piece_type
        ∧ p.rotate_180.color = p.color) := by
  obtain ⟨pt, sh, px, py, pc⟩ := p
  refine ⟨?_, ?_, ?_, ?_, ?_, ?_, ?_⟩
  · show Piece.mk pt (rotCWshape (rotCWshape (rotCWshape (rotCWshape sh)))) px py pc
        = Piece.mk pt sh px py pc
    rw [rotCWshape_four sh h]
  · show Piece.mk pt (rotCCWshape (rotCCWshape (rotCCWshape (rotCCWshape sh)))) px py pc
        = Piece.mk pt sh px py pc
    rw [rotCCWshape_four sh h]
  · show Piece.mk pt (rotCWshape (rotCCWshape sh)) px py pc = Piece.mk pt sh px py pc
    rw [rotCWshape_rotCCWshape sh h]
  · show Piece.mk pt (rotCCWshape (rotCWshape sh)) px py pc = Piece.mk pt sh px py pc
    rw [rotCCWshape_rotCWshape sh h]
  · exact ⟨length_rotCWshape sh, rfl, rfl, rfl, rfl⟩
  · exact ⟨length_rotCCWshape sh, rfl, rfl, rfl, rfl⟩
  · exact ⟨by simp [Piece.rotate_180, rot180shape], rfl, rfl, rfl, rfl⟩

/-- C7, instantiated at the freshly spawned T piece. -/
theorem C7_witness :
    (Piece.new PieceType.T).rotate_clockwise.rotate_clockwise.rotate_clockwise.rotate_clockwise
      = Piece.new PieceType.T :=
  (C7_rotation_algebra (Piece.new PieceType.T) (by decide)).1

/-! Left/Right mutual exclusion of the input model. -/

theorem lr_exclusive_step (s : InputState) (o : InputOp)
    (h : s.left.pressed = false ∨ s.right.pressed = false) :
    (applyInputOp s o).left.pressed = false ∨ (applyInputOp s o).right.pressed = false := by
  cases o with
  | press d now =>
      cases d with
      | Left =>
          refine Or.inr ?_
          unfold applyInputOp InputState.press_direction InputState.release_direction
          dsimp only [InputState.setDir, InputState.dir]
          split <;> rfl
      | Right =>
          refine Or.inl ?_
          unfold applyInputOp InputState.press_direction InputState.release_direction
          dsimp only [InputState.setDir, InputState.dir]
          split <;> rfl
      | Down =>
          unfold applyInputOp InputState.press_direction
          dsimp only [InputState.setDir, InputState.dir]
          exact h
  | release d now =>
      cases d with
      | Left =>
          refine Or.inl ?_
          unfold applyInputOp InputState.release_direction
          dsimp only [InputState.setDir, InputState.dir]
          split <;> rfl
      | Right =>
          refine Or.inr ?_
          unfold applyInputOp InputState.release_direction
          dsimp only [InputState.setDir, InputState.dir]
          split <;> rfl
      | Down =>
          unfold applyInputOp InputState.release_direction
          dsimp only [InputState.setDir, InputState.dir]
          split <;> exact h

theorem lr_exclusive_fold (ops : List InputOp) (s : InputState)
    (h : s.left.pressed = false ∨ s.right.pressed = false) :
    (applyInputOps s ops).left.pressed = false ∨
      (applyInputOps s ops).right.pressed = false := by
  induction ops generalizing s with
  | nil => exact h
  | cons o rest ih => exact ih _ (lr_exclusive_step s o h)

/-- C8: after any sequence of press/release events starting from the
fresh input state, Left and Right are never both pressed; in particular
pressing Left then Right leaves Left released and Right pressed, and
symmetrically with the two swapped. -/
theorem C8_left_right_mutually_exclusive (ops : List InputOp) (nowL nowR : Nat) :
    (((applyInputOps InputState.new ops).is_pressed InputDirection.Left) &&
      ((applyInputOps InputState.new ops).is_pressed InputDirection.Right)) = false
    ∧ (((InputState.new.press_direction InputDirection.Left nowL).press_direction
          InputDirection.Right nowR).is_pressed InputDirection.Left = false
      ∧ ((InputState.new.press_direction InputDirection.Left nowL).press_direction
          InputDirection.Right nowR).is_pressed InputDirection.Right = true)
    ∧ (((InputState.new.press_direction InputDirection.Right nowR).press_direction
          InputDirection.Left nowL).is_pressed InputDirection.Right = false
      ∧ ((InputState.new.press_direction InputDirection.Right nowR).press_direction
          InputDirection.Left nowL).is_pressed InputDirection.Left = true) := by
  refine ⟨?_, ⟨?_, ?_⟩, ⟨?_, ?_⟩⟩
  · rcases lr_exclusive_fold ops InputState.new (Or.inl rfl) with h | h <;>
      simp [InputState.is_pressed, InputState.dir, h]
  all_goals
    unfold InputState.is_pressed InputState.press_direction InputState.release_direction
    dsimp only [InputState.setDir, InputState.dir]
    split <;> rfl

/-! Ghost-freedom of the board under every public operation. -/

theorem rowNoGhost_emptyRow : rowNoGhost emptyRow = true := by decide

theorem boardNoGhost_empty : boardNoGhost empty_board = true := by decide

theorem rowNoGhost_getD (b : Board) (r : Nat) (h : boardNoGhost b = true) :
    rowNoGhost (b.getD r []) = true := by
  by_cases hr : r < b.length
  · rw [List.getD_eq_getElem?_getD, List.getElem?_eq_getElem hr, Option.getD_some]
    exact List.all_eq_true.1 h _ (List.getElem_mem hr)
  · rw [List.getD_eq_getElem?_getD, List.getElem?_eq_none (by omega), Option.getD_none]
    rfl

theorem boardNoGhost_set (b : Board) (i : Nat) (row : List Cell)
    (hb : boardNoGhost b = true) (hrow : rowNoGhost row = true) :
    boardNoGhost (b.set i row) = true := by
  unfold boardNoGhost at hb ⊢
  rw [List.all_eq_true] at hb ⊢
  intro r hr
  rcases List.mem_or_eq_of_mem_set hr with h | h
  · exact hb r h
  · rw [h]; exact hrow

theorem rowNoGhost_set (r : List Cell) (j : Nat) (c : Cell)
    (hr : rowNoGhost r = true) (hc : cellNoGhost c = true) :
    rowNoGhost (r.set j c) = true := by
  unfold rowNoGhost at hr ⊢
  rw [List.all_eq_true] at hr ⊢
  intro x hx
  rcases List.mem_or_eq_of_mem_set hx with h | h
  · exact hr x h
  · rw [h]; exact hc

theorem boardNoGhost_setCellAt (b : Board) (x y : Int) (c : Cell)
    (hb : boardNoGhost b = true) (hc : cellNoGhost c = true) :
    boardNoGhost (setCellAt b x y c) = true := by
  unfold setCellAt
  exact boardNoGhost_set _ _ _ hb (rowNoGhost_set _ _ _ (rowNoGhost_getD b _ hb) hc)

theorem boardNoGhost_lockBlocks (color : Color) (blocks : List (Int × Int)) (b : Board)
    (hb : boardNoGhost b = true) :
    boardNoGhost (lockBlocks b color blocks) = true := by
  induction blocks generalizing b with
  | nil => exact hb
  | cons xy rest ih =>
      unfold lockBlocks
      dsimp only
      split
      · exact ih _ (boardNoGhost_setCellAt _ _ _ _ hb rfl)
      · exact ih _ hb

theorem boardNoGhost_clearLoop (rows : List Nat) (b : Board) (w n : Nat)
    (hb : boardNoGhost b = true) :
    boardNoGhost (clearLoop rows b w n).1 = true := by
  induction rows generalizing b w n with
  | nil => exact hb
  | cons r rs ih =>
      unfold clearLoop
      dsimp only
      split
      · refine ih _ _ _ ?_
        by_cases hrw : r ≠ w
        · rw [if_pos hrw]
          exact boardNoGhost_set _ _ _ hb (rowNoGhost_getD b r hb)
        · rw [if_neg hrw]; exact hb
      · exact ih _ _ _ hb

theorem boardNoGhost_fillTopRows (w : Nat) (b : Board)
    (hb : boardNoGhost b = true) :
    boardNoGhost (fillTopRows b w) = true := by
  unfold fillTopRows
  generalize List.range (w + 1) = rows
  induction rows generalizing b with
  | nil => exact hb
  | cons r rs ih =>
      rw [List.foldl_cons]
      exact ih _ (boardNoGhost_set _ _ _ hb rowNoGhost_emptyRow)

theorem boardNoGhost_clear_lines (b : Board) (hb : boardNoGhost b = true) :
    boardNoGhost (clear_lines b).1 = true := by
  unfold clear_lines
  exact boardNoGhost_fillTopRows _ _ (boardNoGhost_clearLoop _ _ _ _ hb)

theorem board_move_piece (g : Game) (now : Nat) (dx dy : Int) :
    (g.move_piece now dx dy).1.board = g.board := by
  unfold Game.move_piece
  split
  · rfl
  · split
    · rfl
    · dsimp only
      split
      · split <;> rfl
      · split <;> rfl

theorem board_tryKicks (g : Game) (rotated : Piece) (ks : List (Int × Int)) :
    (g.tryKicks rotated ks).1.board = g.board := by
  induction ks with
  | nil => rfl
  | cons k rest ih =>
      unfold Game.tryKicks
      dsimp only
      split
      · rfl
      · exact ih

theorem board_rotateWith (g : Game) (rot : Piece → Piece) :
    (g.rotateWith rot).1.board = g.board := by
  unfold Game.rotateWith
  split
  · rfl
  · dsimp only
    split
    · rfl
    · exact board_tryKicks _ _ _

theorem board_spawn_piece (g : Game) (refill : List PieceType) :
    (g.spawn_piece refill).board = g.board := by
  unfold Game.spawn_piece
  split
  · rfl
  · cases hn : g.next_pieces with
    | nil =>
        simp only [hn]
        split
        · split <;> rfl
        · rfl
    | cons p rest =>
        simp only [hn]
        split <;> rfl

theorem board_hold_piece_op (g : Game) (refill : List PieceType) :
    (g.hold_piece_op refill).board = g.board := by
  unfold Game.hold_piece_op
  split
  · rfl
  · split
    · rfl
    · dsimp only
      cases hh : g.hold_piece with
      | some held =>
          simp only [hh]
          split <;> rfl
      | none =>
          simp only [hh]
          cases hn : g.next_pieces with
          | nil => simp only [hn]
          | cons p rest =>
              simp only [hn]
              split <;> rfl

theorem board_update_lines (g : Game) (n : Nat) :
    (g.update_lines n).board = g.board := by
  unfold Game.update_lines
  dsimp only
  split <;> rfl

theorem boardNoGhost_lock_piece (g : Game) (now : Nat) (refill : List PieceType)
    (hb : boardNoGhost g.board = true) :
    boardNoGhost (g.lock_piece now refill).board = true := by
  unfold Game.lock_piece
  dsimp only
  split
  · rw [board_spawn_piece, board_update_lines]
    exact boardNoGhost_clear_lines _ (boardNoGhost_lockBlocks _ _ _ hb)
  · rw [board_spawn_piece, board_update_lines]
    exact boardNoGhost_clear_lines _ hb

theorem board_dropLoop (fuel : Nat) (g : Game) (now : Nat) :
    (Game.dropLoop fuel g now).board = g.board := by
  induction fuel generalizing g with
  | zero => rfl
  | succ fuel ih =>
      unfold Game.dropLoop
      dsimp only
      split
      · rw [ih, board_move_piece]
      · rw [board_move_piece]

/-- C10: every engine state reachable from a fresh or reset engine via
the public operations has a ghost-free board — only `Empty` and `Filled`
cells, since locking writes only `Filled`, line clearing writes only
`Empty` or copies existing rows, and the initial board is all `Empty`. -/
theorem C10_board_has_no_ghost_cells (g : Game) (h : Reachable g) :
    boardNoGhost g.board = true := by
  induction h with
  | new_game bag => exact boardNoGhost_empty
  | reset_game bag => exact boardNoGhost_empty
  | countdown h ih =>
      unfold Game.start_countdown
      split <;> exact ih
  | begin_play h refill ih =>
      unfold Game.start_game
      rw [board_spawn_piece]
      exact ih
  | spawn h refill ih => rw [board_spawn_piece]; exact ih
  | move h now dx dy ih => rw [board_move_piece]; exact ih
  | rotate h ih =>
      unfold Game.rotate_piece
      rw [board_rotateWith]
      exact ih
  | rotate_left h ih =>
      unfold Game.rotate_piece_left
      rw [board_rotateWith]
      exact ih
  | rotate_180 h ih =>
      unfold Game.rotate_piece_180
      rw [board_rotateWith]
      exact ih
  | hold h refill ih => rw [board_hold_piece_op]; exact ih
  | lock h now refill ih => exact boardNoGhost_lock_piece _ _ _ ih
  | drop h fuel now refill ih =>
      unfold Game.hard_drop
      refine boardNoGhost_lock_piece _ _ _ ?_
      rw [board_dropLoop]
      exact ih
  | input_press h d now ih => exact ih
  | input_release h d now ih => exact ih

/-- C10, instantiated at a fresh engine. -/
theorem C10_witness :
    boardNoGhost (Game.new [PieceType.I, PieceType.O, PieceType.T]).board = true :=
  C10_board_has_no_ghost_cells _
    (Reachable.new_game [PieceType.I, PieceType.O, PieceType.T])

end Tstris
